import Mathlib

/-!
# Payment-channel storage reconciliation of the snet daemon

A shallow embedding of `escrow/storage.go` (the combined storage that falls
back to the MultiPartyEscrow contract on a storage miss), of
`etcddb/etcddb_client.go` (the CAS transaction issued against etcd) and of
`metrics/heartbeat.go` (heartbeat configuration validation), together with a
model of the payment handler's header parsing taken from the specification
(the handler itself is only present through its tests), followed by theorems
about them.

Conventions of the embedding:

* a Go pointer that may be nil is an `Option`; `*big.Int` values that the code
  dereferences unconditionally are `Int`;
* stateful collaborators (the delegate storage, the etcd cluster) are modelled
  by explicit state passing;
* every call made on a collaborator is recorded in a call log, so that "calls
  X exactly once" and "never calls Y" are statements about the log;
* logging statements have no effect on results and are left out.
-/

set_option autoImplicit false

namespace escrow

/-- A Go `error` value of the escrow package. The two errors built by
`fmt.Errorf` in `storage.go` keep their arguments; every other error
(returned by the delegate storage or by the contract binding) is `other`. -/
inductive Error where
  /-- "Channel nonce: %v is not equal to expected: %v" -/
  | nonceNotEqual (channelNonce expected : Int)
  /-- "Channel received belongs to another group of replicas, current group: %v, channel group: %v" -/
  | anotherGroup (configGroupId channelGroup : Int)
  | other (msg : String)
deriving DecidableEq, Repr

/-- Payment channel state: `Open` or `Closed`. -/
inductive PaymentChannelState where
  | Open
  | Closed
deriving DecidableEq, Repr

/-- A 20-byte account address (`common.Address`), as its bytes. -/
abbrev Address := List Nat

/-- Key of a payment channel row: channel id and nonce. -/
structure PaymentChannelKey where
  ID : Int
  Nonce : Int
deriving DecidableEq, Repr

/-- A payment channel row. `Signature` is a byte slice and may be nil. -/
structure PaymentChannelData where
  Nonce : Int
  State : PaymentChannelState
  Sender : Address
  Recipient : Address
  GroupId : Int
  FullAmount : Int
  AuthorizedAmount : Int
  Signature : Option (List Nat)
deriving DecidableEq, Repr

/-- The struct returned by the contract binding `MultiPartyEscrow.Channels`. -/
structure MpeChannel where
  Sender : Address
  Recipient : Address
  ReplicaId : Int
  Value : Int
  Nonce : Int
  Expiration : Int
deriving DecidableEq, Repr

/-- The interface `PaymentChannelStorage`, over a store of type `σ`: each
method takes the current store and returns its Go results with the next store. -/
structure PaymentChannelStorage (σ : Type) where
  Get : PaymentChannelKey → σ → (Option PaymentChannelData × Bool × Option Error) × σ
  Put : PaymentChannelKey → Option PaymentChannelData → σ → Option Error × σ
  CompareAndSwap : PaymentChannelKey → Option PaymentChannelData → Option PaymentChannelData →
    σ → (Bool × Option Error) × σ

/-- The contract handle: only the `Channels(nil, id)` read is consumed. It
returns the channel struct together with an error. -/
structure MultiPartyEscrow where
  Channels : Int → MpeChannel × Option Error

/-- A call made by the combined storage on one of its collaborators. -/
inductive Call where
  | delegateGet (key : PaymentChannelKey)
  | delegatePut (key : PaymentChannelKey) (state : Option PaymentChannelData)
  | delegateCompareAndSwap (key : PaymentChannelKey)
      (prevState newState : Option PaymentChannelData)
  | mpeChannels (id : Int)
deriving DecidableEq, Repr

/-- The struct `combinedStorage`, with the value which
`config.GetBigInt(config.ReplicaGroupIDKey)` returns. -/
structure combinedStorage (σ : Type) where
  delegate : PaymentChannelStorage σ
  mpe : MultiPartyEscrow
  configGroupId : Int

/-- What a `Get` call leaves behind: the three Go results, the delegate store
after the call and the calls made on the collaborators, in order. -/
structure GetResult (σ : Type) where
  state : Option PaymentChannelData
  ok : Bool
  err : Option Error
  store : σ
  calls : List Call

/-- What `Put` leaves behind. -/
structure PutResult (σ : Type) where
  err : Option Error
  store : σ
  calls : List Call

/-- What `CompareAndSwap` leaves behind. -/
structure SwapResult (σ : Type) where
  ok : Bool
  err : Option Error
  store : σ
  calls : List Call

variable {σ : Type}

/-- Embedding of `combinedStorage.getChannelStateFromBlockchain`. -/
def combinedStorage.getChannelStateFromBlockchain (storage : combinedStorage σ) (id : Int) :
    Option PaymentChannelData × Bool × Option Error :=
  let (channel, err) := storage.mpe.Channels id
  if err.isSome then
    (none, false, err)
  else
    let configGroupId := storage.configGroupId
    if channel.ReplicaId ≠ configGroupId then
      (none, false, some (Error.anotherGroup configGroupId channel.ReplicaId))
    else
      (some
        { Nonce := channel.Nonce
          State := PaymentChannelState.Open
          Sender := channel.Sender
          Recipient := channel.Recipient
          GroupId := channel.ReplicaId
          FullAmount := channel.Value
          AuthorizedAmount := 0
          Signature := none },
        true, none)

/-- Embedding of `combinedStorage.Put`. -/
def combinedStorage.Put (storage : combinedStorage σ) (key : PaymentChannelKey)
    (state : Option PaymentChannelData) (s : σ) : PutResult σ :=
  let (err, s1) := storage.delegate.Put key state s
  { err := err, store := s1, calls := [Call.delegatePut key state] }

/-- Embedding of `combinedStorage.CompareAndSwap`. -/
def combinedStorage.CompareAndSwap (storage : combinedStorage σ) (key : PaymentChannelKey)
    (prevState newState : Option PaymentChannelData) (s : σ) : SwapResult σ :=
  let ((ok, err), s1) := storage.delegate.CompareAndSwap key prevState newState s
  { ok := ok, err := err, store := s1,
    calls := [Call.delegateCompareAndSwap key prevState newState] }

/-- Embedding of `combinedStorage.Get`. The result is `none` when the Go code
would dereference a nil `state` (a run-time panic); `Get_returns` shows that
this never happens. -/
def combinedStorage.Get (storage : combinedStorage σ) (key : PaymentChannelKey) (s : σ) :
    Option (GetResult σ) :=
  let ((state, ok, err), s1) := storage.delegate.Get key s
  let log1 := [Call.delegateGet key]
  if ok && err.isNone then
    some { state := state, ok := ok, err := err, store := s1, calls := log1 }
  else if err.isSome then
    some { state := none, ok := false, err := err, store := s1, calls := log1 }
  else
    let (state, ok, err) := storage.getChannelStateFromBlockchain key.ID
    let log2 := log1 ++ [Call.mpeChannels key.ID]
    if !ok || err.isSome then
      some { state := state, ok := ok, err := err, store := s1, calls := log2 }
    else
      match state with
      | none => none
      | some st =>
        if st.Nonce ≠ key.Nonce then
          some { state := none, ok := false,
                 err := some (Error.nonceNotEqual st.Nonce key.Nonce),
                 store := s1, calls := log2 }
        else
          let r := storage.CompareAndSwap key none (some st) s1
          let log3 := log2 ++ r.calls
          if r.err.isSome then
            some { state := some st, ok := r.ok, err := r.err, store := r.store, calls := log3 }
          else if !r.ok then
            some { state := none, ok := false, err := r.err, store := r.store, calls := log3 }
          else
            some { state := some st, ok := r.ok, err := r.err, store := r.store, calls := log3 }

/-- The row which hydration builds from a contract channel. -/
def freshChannelData (channel : MpeChannel) : PaymentChannelData :=
  { Nonce := channel.Nonce
    State := PaymentChannelState.Open
    Sender := channel.Sender
    Recipient := channel.Recipient
    GroupId := channel.ReplicaId
    FullAmount := channel.Value
    AuthorizedAmount := 0
    Signature := none }

/-- Modelled from the spec: the single-process in-memory key/value backend
with the typed channel storage over it (sections 4.1 and 4.2 of the
specification); its implementation is not among the sources. The store is an
association list with at most one row per key. -/
abbrev MemoryStore := List (PaymentChannelKey × PaymentChannelData)

/-- The row stored under `key`, if any. -/
def MemoryStore.find (s : MemoryStore) (key : PaymentChannelKey) : Option PaymentChannelData :=
  match s with
  | [] => none
  | (k, v) :: rest => if k = key then some v else MemoryStore.find rest key

/-- The store without any row for `key`. -/
def MemoryStore.remove (s : MemoryStore) (key : PaymentChannelKey) : MemoryStore :=
  s.filter (fun p => decide (p.1 ≠ key))

/-- The store with `key` bound to `row`, replacing any earlier row. -/
def MemoryStore.insert (s : MemoryStore) (key : PaymentChannelKey) (row : PaymentChannelData) :
    MemoryStore :=
  (key, row) :: MemoryStore.remove s key

/-- Modelled from the spec: the in-memory `PaymentChannelStorage` (section 4.1:
`Get` returns the committed value or absence, `Put` writes unconditionally,
`CompareAndSwap` applies only when the current content equals `expected`,
where a nil `expected` means "only if currently absent"); its implementation
is not among the sources. A nil new value stores nothing. No operation fails. -/
def memoryStorage : PaymentChannelStorage MemoryStore where
  Get := fun key s =>
    match MemoryStore.find s key with
    | some row => ((some row, true, none), s)
    | none => ((none, false, none), s)
  Put := fun key state s =>
    match state with
    | some row => (none, MemoryStore.insert s key row)
    | none => (none, s)
  CompareAndSwap := fun key prevState newState s =>
    if MemoryStore.find s key = prevState then
      match newState with
      | some row => ((true, none), MemoryStore.insert s key row)
      | none => ((true, none), s)
    else
      ((false, none), s)

/-- The in-memory storage shared with another replica that installs `row`
under `raced` right after this replica's read: `Get` reports what the store
held at the read, and the store it leaves behind already has the other
replica's row. -/
def racingStorage (raced : PaymentChannelKey) (row : PaymentChannelData) :
    PaymentChannelStorage MemoryStore where
  Get := fun key s => ((memoryStorage.Get key s).1, MemoryStore.insert s raced row)
  Put := memoryStorage.Put
  CompareAndSwap := memoryStorage.CompareAndSwap

/-- A contract holding the same channel under every id. -/
def constantEscrow (channel : MpeChannel) : MultiPartyEscrow where
  Channels := fun _ => (channel, none)

/-- A sample contract channel: nonce 3, replica group 1, value 1000000. -/
def sampleChannel : MpeChannel :=
  { Sender := [1], Recipient := [2], ReplicaId := 1, Value := 1000000, Nonce := 3, Expiration := 0 }

/-- A sample key: channel 42 at nonce 3. -/
def sampleKey : PaymentChannelKey := { ID := 42, Nonce := 3 }

/-- A combined storage of replica group `group` over the in-memory storage and
the constant contract holding `sampleChannel`. -/
def sampleStorage (group : Int) : combinedStorage MemoryStore :=
  { delegate := memoryStorage, mpe := constantEscrow sampleChannel, configGroupId := group }

/-- A stored row with cheque progress, of replica group 1. -/
def sampleRow : PaymentChannelData :=
  { Nonce := 3, State := PaymentChannelState.Open, Sender := [1], Recipient := [2],
    GroupId := 1, FullAmount := 1000000, AuthorizedAmount := 12300, Signature := some [7] }

/-- A stored row of replica group 2. -/
def foreignRow : PaymentChannelData :=
  { sampleRow with GroupId := 2 }

/-- A delegate over the in-memory store whose read fails with `err`, while
still handing back whatever row the store holds together with its presence
flag; writes behave as in the in-memory storage. -/
def failingStorage (err : Error) : PaymentChannelStorage MemoryStore where
  Get := fun key s =>
    match MemoryStore.find s key with
    | some row => ((some row, true, some err), s)
    | none => ((none, false, some err), s)
  Put := memoryStorage.Put
  CompareAndSwap := memoryStorage.CompareAndSwap

/-- Number of `CompareAndSwap` calls in a call log. -/
def countCompareAndSwap : List Call → Nat
  | [] => 0
  | Call.delegateCompareAndSwap _ _ _ :: rest => countCompareAndSwap rest + 1
  | _ :: rest => countCompareAndSwap rest

/-- Whether a call is a `Put` on the delegate. -/
def Call.isPut : Call → Bool
  | Call.delegatePut _ _ => true
  | _ => false

end escrow

/-! ## The payment handler (PARSE, BEGIN, VALIDATE_INCOME) -/

namespace handler

/-- Modelled from the spec: the transport status codes onto which error kinds
are mapped (section 4.7); the package `handler` is not among the sources. -/
inductive Code where
  | InvalidArgument
  | Unauthenticated
  | FailedPrecondition
  | Internal
  | Unavailable
deriving DecidableEq, Repr

/-- Modelled from the spec: a transport error, status code and human-readable
message (section 7), as the tests compare it through
`handler.NewGrpcError(code, message)`; the package `handler` is not among the
sources. -/
structure GrpcError where
  Code : Code
  Message : String
deriving DecidableEq, Repr

/-- Modelled from the spec: the constructor `handler.NewGrpcError` used by the
tests, which is not among the sources. -/
def NewGrpcError (code : Code) (message : String) : GrpcError :=
  { Code := code, Message := message }

/-- Request metadata (`metadata.MD`): header names with their values. A value
is a byte string, one character per byte. -/
abbrev MD := List (String × String)

/-- Lower-case form of a header name: header names are case-insensitive and
metadata keeps them in lower case. -/
def lowerCase (name : String) : String :=
  String.mk (name.toList.map Char.toLower)

/-- Value stored under a header name, if any (`md.Get`). -/
def MD.Get (md : MD) (key : String) : Option String :=
  match md with
  | [] => none
  | (k, v) :: rest => if k = lowerCase key then some v else MD.Get rest key

/-- Removal of a header (`delete(md, key)` in the tests). -/
def MD.delete (md : MD) (key : String) : MD :=
  md.filter (fun p => decide (p.1 ≠ key))

end handler

namespace escrow

open handler

/-- Header carrying the channel id. -/
def PaymentChannelIDHeader : String := "snet-payment-channel-id"

/-- Header carrying the channel nonce. -/
def PaymentChannelNonceHeader : String := "snet-payment-channel-nonce"

/-- Header carrying the cheque amount. -/
def PaymentChannelAmountHeader : String := "snet-payment-channel-amount"

/-- Header carrying the cheque signature. -/
def PaymentChannelSignatureHeader : String := "snet-payment-channel-signature-bin"

/-- Value of a non-empty run of decimal digits, most significant first, added
to `acc` times the matching power of ten. -/
def digitsValue : List Char → Nat → Option Nat
  | [], acc => some acc
  | c :: rest, acc =>
    if c.isDigit then digitsValue rest (acc * 10 + (c.toNat - 48)) else none

/-- Modelled from the spec: reading of a "decimal big integer" header value
(section 4.6); the parsing code is not among the sources. An optional sign is
followed by at least one decimal digit. -/
def parseBigInt (value : String) : Option Int :=
  match value.toList with
  | [] => none
  | '-' :: [] => none
  | '+' :: [] => none
  | '-' :: digits => (digitsValue digits 0).map (fun n => -(n : Int))
  | '+' :: digits => (digitsValue digits 0).map (fun n => (n : Int))
  | digits => (digitsValue digits 0).map (fun n => (n : Int))

/-- Modelled from the spec: extraction of a numeric header (section 4.6:
a missing header gives `InvalidArgument("missing \"<header>\"")`, a malformed
number gives `InvalidArgument("invalid <header>")`); the transport adapter is
not among the sources. -/
def getBigInt (md : MD) (header : String) : Except GrpcError Int :=
  match md.Get header with
  | none => Except.error (NewGrpcError Code.InvalidArgument ("missing \"" ++ header ++ "\""))
  | some value =>
    match parseBigInt value with
    | none => Except.error (NewGrpcError Code.InvalidArgument ("invalid " ++ header))
    | some n => Except.ok n

/-- Modelled from the spec: extraction of a raw-bytes header (section 4.6);
the transport adapter is not among the sources. -/
def getBytes (md : MD) (header : String) : Except GrpcError String :=
  match md.Get header with
  | none => Except.error (NewGrpcError Code.InvalidArgument ("missing \"" ++ header ++ "\""))
  | some value => Except.ok value

/-- Modelled from the spec: a cheque (section 3); the struct is not among the
sources. -/
structure Payment where
  MpeContractAddress : Address
  ChannelID : Int
  ChannelNonce : Int
  Amount : Int
  Signature : String
deriving DecidableEq, Repr

/-- Modelled from the spec: the error kinds which the transport adapter maps
(table of section 4.7); their declaration is not among the sources. -/
inductive ErrorKind where
  | InvalidArgument
  | Unauthenticated
  | FailedPrecondition
  | Internal
  | Unavailable
deriving DecidableEq, Repr

/-- Modelled from the spec: a domain error, kind and message (section 7,
`NewPaymentError` in the tests); its declaration is not among the sources. -/
structure PaymentError where
  Kind : ErrorKind
  Message : String
deriving DecidableEq, Repr

/-- Modelled from the spec: the mapping of error kinds onto transport codes
(table of section 4.7), the message kept as it is. -/
def PaymentError.toGrpcError (e : PaymentError) : GrpcError :=
  match e.Kind with
  | ErrorKind.InvalidArgument => NewGrpcError Code.InvalidArgument e.Message
  | ErrorKind.Unauthenticated => NewGrpcError Code.Unauthenticated e.Message
  | ErrorKind.FailedPrecondition => NewGrpcError Code.FailedPrecondition e.Message
  | ErrorKind.Internal => NewGrpcError Code.Internal e.Message
  | ErrorKind.Unavailable => NewGrpcError Code.Unavailable e.Message

/-- Modelled from the spec: a begun payment transaction (section 4.4), the
channel row loaded at BEGIN and the cheque it was begun for; its declaration is
not among the sources. -/
structure PaymentTransaction where
  Channel : PaymentChannelData
  Payment : Payment
deriving DecidableEq, Repr

/-- Modelled from the spec: the struct `paymentChannelPaymentHandler` with the
three fields the tests set: the channel service (`StartPaymentTransaction`,
section 4.4), the contract address and the income validator (`Validate` on the
stored and the proposed authorized amount, section 4.5); its declaration is
not among the sources. -/
structure paymentChannelPaymentHandler where
  service : Payment → Except PaymentError PaymentTransaction
  mpeContractAddress : Address
  incomeValidator : Int → Int → Option PaymentError

/-- Results of `Payment`: the payment (nil on error), the error, and whether
the transaction begun was rolled back. -/
structure PaymentResult where
  payment : Option PaymentTransaction
  err : Option GrpcError
  rolledBack : Bool
deriving DecidableEq, Repr

/-- Modelled from the spec: the PARSE step (section 4.6), which extracts the
four headers in the order in which the specification lists them; the handler
is not among the sources (only its tests are). -/
def paymentChannelPaymentHandler.getPaymentFromContext (h : paymentChannelPaymentHandler)
    (md : MD) : Except GrpcError Payment :=
  match getBigInt md PaymentChannelIDHeader with
  | Except.error e => Except.error e
  | Except.ok channelID =>
    match getBigInt md PaymentChannelNonceHeader with
    | Except.error e => Except.error e
    | Except.ok channelNonce =>
      match getBigInt md PaymentChannelAmountHeader with
      | Except.error e => Except.error e
      | Except.ok amount =>
        match getBytes md PaymentChannelSignatureHeader with
        | Except.error e => Except.error e
        | Except.ok signature =>
          Except.ok
            { MpeContractAddress := h.mpeContractAddress
              ChannelID := channelID
              ChannelNonce := channelNonce
              Amount := amount
              Signature := signature }

/-- Modelled from the spec: `paymentChannelPaymentHandler.Payment`, the steps
PARSE, BEGIN and VALIDATE_INCOME of the per-request state machine (section
4.6); the handler is not among the sources (only its tests are). An error of
PARSE is returned as it is; an error of BEGIN is propagated with its kind; an
error of the income validator rolls the transaction back and is propagated. -/
def paymentChannelPaymentHandler.Payment (h : paymentChannelPaymentHandler) (md : MD) :
    PaymentResult :=
  match h.getPaymentFromContext md with
  | Except.error e => { payment := none, err := some e, rolledBack := false }
  | Except.ok payment =>
    match h.service payment with
    | Except.error e => { payment := none, err := some e.toGrpcError, rolledBack := false }
    | Except.ok transaction =>
      match h.incomeValidator transaction.Channel.AuthorizedAmount payment.Amount with
      | some e => { payment := none, err := some e.toGrpcError, rolledBack := true }
      | none => { payment := some transaction, err := none, rolledBack := false }

end escrow

/-! ## The etcd client -/

namespace etcddb

/-- A Go `string`, as its bytes. -/
abbrev GoString := List Nat

/-- What etcd keeps for a key that exists: its value and its version, the
number of writes to the key since it was created (at least 1). -/
structure KeyValue where
  Value : GoString
  Version : Nat
deriving DecidableEq, Repr

/-- The etcd cluster as the client sees it: the key space, and the error with
which the cluster answers the request (a timeout, an unreachable cluster, a
rejected request), if any. The model does not decide when requests fail. -/
structure Etcd where
  kvs : List (GoString × KeyValue)
  failure : Option String
deriving DecidableEq, Repr

/-- What etcd keeps for `key`, if the key exists. -/
def Etcd.find (e : Etcd) (key : GoString) : Option KeyValue :=
  List.lookup key e.kvs

/-- The key space after a put: a new key starts at version 1, a write to an
existing key increments its version. -/
def Etcd.put (e : Etcd) (key value : GoString) : Etcd :=
  let version := match e.find key with
    | none => 1
    | some kv => kv.Version + 1
  { e with kvs := (key, { Value := value, Version := version }) ::
      e.kvs.filter (fun p => decide (p.1 ≠ key)) }

/-- The key space after a delete. -/
def Etcd.delete (e : Etcd) (key : GoString) : Etcd :=
  { e with kvs := e.kvs.filter (fun p => decide (p.1 ≠ key)) }

/-- An equality comparison of a transaction: `clientv3.Compare(target, "=", v)`
for the targets `clientv3.Value(key)` and `clientv3.Version(key)`. -/
inductive Cmp where
  | Value (key : GoString) (v : GoString)
  | Version (key : GoString) (v : Nat)
deriving DecidableEq, Repr

/-- An operation of a transaction: `clientv3.OpPut(key, value)`. -/
inductive Op where
  | OpPut (key value : GoString)
deriving DecidableEq, Repr

/-- Semantics of an etcd comparison (etcd is an external service; this follows
its API: the version of a key that does not exist is 0, and a comparison of
the value of a key that does not exist always fails, because a missing value
cannot be told from an empty one on the wire). -/
def Cmp.holds (e : Etcd) : Cmp → Bool
  | Cmp.Value key v =>
    match e.find key with
    | none => false
    | some kv => decide (kv.Value = v)
  | Cmp.Version key v =>
    match e.find key with
    | none => decide (v = 0)
    | some kv => decide (kv.Version = v)

/-- Effect of an operation. -/
def Op.apply (e : Etcd) : Op → Etcd
  | Op.OpPut key value => e.put key value

/-- The response of a transaction. -/
structure TxnResponse where
  Succeeded : Bool
deriving DecidableEq, Repr

/-- The transaction `Txn(ctx).If(cmps...).Then(ops...).Commit()`: atomically,
when every comparison holds the operations are applied and `Succeeded` is
true, otherwise nothing is applied and `Succeeded` is false. -/
def Commit (cmps : List Cmp) (ops : List Op) (e : Etcd) :
    (TxnResponse × Option String) × Etcd :=
  match e.failure with
  | some err => (({ Succeeded := false }, some err), e)
  | none =>
    if cmps.all (Cmp.holds e) then
      (({ Succeeded := true }, none), ops.foldl Op.apply e)
    else
      (({ Succeeded := false }, none), e)

/-- The struct `EtcdClient`: the request timeout; the cluster behind the
`etcdv3` handle is passed explicitly. -/
structure EtcdClient where
  timeout : Nat

/-- Embedding of `byteArraytoString`: `string(bytes)`, which is the empty
string for a nil slice. -/
def byteArraytoString (bytes : Option (List Nat)) : GoString :=
  match bytes with
  | none => []
  | some bs => bs

/-- Embedding of `stringToByteArray`. -/
def stringToByteArray (str : GoString) : Option (List Nat) :=
  some str

/-- Embedding of `EtcdClient.Get`. The value of the first key/value of the
response is returned; an empty value arrives from etcd as a nil slice. -/
def EtcdClient.Get (_client : EtcdClient) (key : Option (List Nat)) (e : Etcd) :
    Option (List Nat) × Option String :=
  match e.failure with
  | some err => (none, some err)
  | none =>
    match e.find (byteArraytoString key) with
    | some kv => (if kv.Value = [] then none else some kv.Value, none)
    | none => (none, none)

/-- Embedding of `EtcdClient.Put`. -/
def EtcdClient.Put (_client : EtcdClient) (key value : Option (List Nat)) (e : Etcd) :
    Option String × Etcd :=
  match e.failure with
  | some err => (some err, e)
  | none => (none, e.put (byteArraytoString key) (byteArraytoString value))

/-- Embedding of `EtcdClient.Delete`. -/
def EtcdClient.Delete (_client : EtcdClient) (key : Option (List Nat)) (e : Etcd) :
    Option String × Etcd :=
  match e.failure with
  | some err => (some err, e)
  | none => (none, e.delete (byteArraytoString key))

/-- Embedding of `EtcdClient.CompareAndSet`. -/
def EtcdClient.CompareAndSet (_client : EtcdClient) (key expect update : Option (List Nat))
    (e : Etcd) : (Bool × Option String) × Etcd :=
  let ((response, err), e1) :=
    Commit [Cmp.Value (byteArraytoString key) (byteArraytoString expect)]
      [Op.OpPut (byteArraytoString key) (byteArraytoString update)] e
  if err.isSome then
    ((false, err), e1)
  else
    ((response.Succeeded, none), e1)

/-- A reachable cluster with an empty key space. -/
def emptyEtcd : Etcd := { kvs := [], failure := none }

/-- A client with the default request timeout. -/
def defaultClient : EtcdClient := { timeout := 3000 }

end etcddb

/-! ## Heartbeat configuration -/

namespace metrics

/-- The package `config` as far as heartbeat validation uses it (the package is
not among the sources): the string lookup `config.GetString`, the two key
names and the predicate `config.IsValidUrl`. -/
structure Config where
  GetString : String → String
  ServiceHeartbeatType : String
  HeartbeatServiceEndpoint : String
  IsValidUrl : String → Bool

/-- Embedding of `ValidateHeartbeatConfig`: the error returned, and the value
of the package variable `isNoHeartbeatURL` afterwards. -/
def ValidateHeartbeatConfig (config : Config) : Option String × Bool :=
  let isNoHeartbeatURL := false
  let hbType := config.GetString (config.GetString config.ServiceHeartbeatType)
  if hbType ≠ "grpc" ∧ hbType ≠ "http" ∧ hbType ≠ "none" ∧ hbType ≠ "" then
    (some ("unrecognized heartbet service type : '" ++ hbType ++ "'"), isNoHeartbeatURL)
  else if hbType = "" ∨ hbType = "none" ∨
      config.GetString config.HeartbeatServiceEndpoint = "" then
    (none, true)
  else if !config.IsValidUrl (config.GetString config.HeartbeatServiceEndpoint) then
    (some "service endpoint must be a valid URL", isNoHeartbeatURL)
  else
    (none, isNoHeartbeatURL)

/-- String lookup in a list of settings; a key that is not set reads as the
empty string. -/
def settingsGetString (settings : List (String × String)) (key : String) : String :=
  match List.lookup key settings with
  | some value => value
  | none => ""

/-- A configuration whose heartbeat type is set to `hbType` and whose heartbeat
endpoint is set to `endpoint`, nothing else being set; any non-empty endpoint
counts as a valid URL here. -/
def heartbeatConfig (hbType endpoint : String) : Config :=
  { GetString := settingsGetString
      [("service_heartbeat_type", hbType), ("heartbeat_svc_end_point", endpoint)]
    ServiceHeartbeatType := "service_heartbeat_type"
    HeartbeatServiceEndpoint := "heartbeat_svc_end_point"
    IsValidUrl := fun url => decide (url ≠ "") }

end metrics

/-! ## Theorems: combined storage -/

namespace escrow

variable {σ : Type}

/-- `combinedStorage.Get` always returns: the nil dereference of `state.Nonce`
is unreachable, because `getChannelStateFromBlockchain` reports `ok` only
together with a row. -/
theorem combinedStorage.Get_returns (storage : combinedStorage σ) (key : PaymentChannelKey)
    (s : σ) : ∃ r, storage.Get key s = some r := by
  unfold combinedStorage.Get combinedStorage.getChannelStateFromBlockchain
  simp only []
  split_ifs <;>
    first
    | exact ⟨_, rfl⟩
    | (simp_all; done)
    | (simp_all; split_ifs <;> exact ⟨_, rfl⟩)

/-- The three shapes of a `Get` execution: only the delegate read; the
delegate read and the contract read; or both reads followed by one
`CompareAndSwap(key, nil, row)` of a row of this daemon's replica group. The
delegate store afterwards is the one left by the last delegate call. -/
theorem combinedStorage.Get_paths (storage : combinedStorage σ) (key : PaymentChannelKey)
    (s : σ) :
    ∃ r, storage.Get key s = some r ∧
      ((r.calls = [Call.delegateGet key] ∧ r.store = (storage.delegate.Get key s).2 ∧
          ((storage.delegate.Get key s).1 = (r.state, true, none) ∨ r.ok = false)) ∨
       (r.calls = [Call.delegateGet key, Call.mpeChannels key.ID] ∧
          r.store = (storage.delegate.Get key s).2 ∧ r.state = none ∧ r.ok = false) ∨
       (∃ st : PaymentChannelData,
          r.calls = [Call.delegateGet key, Call.mpeChannels key.ID,
                     Call.delegateCompareAndSwap key none (some st)] ∧
          r.store = (storage.delegate.CompareAndSwap key none (some st)
                      (storage.delegate.Get key s).2).2 ∧
          st.GroupId = storage.configGroupId ∧
          (r.state = none ∨ r.state = some st))) := by
  unfold combinedStorage.Get combinedStorage.getChannelStateFromBlockchain
    combinedStorage.CompareAndSwap
  simp only []
  split_ifs <;>
    first
    | exact ⟨_, rfl, Or.inl ⟨rfl, rfl, Or.inr rfl⟩⟩
    | (refine ⟨_, rfl, Or.inl ⟨rfl, rfl, Or.inl ?_⟩⟩
       rw [Prod.ext_iff, Prod.ext_iff]
       simp_all)
    | exact ⟨_, rfl, Or.inr (Or.inl ⟨rfl, rfl, rfl, rfl⟩)⟩
    | (simp_all; done)
    | (simp_all
       split_ifs <;>
         first
         | exact ⟨_, rfl, Or.inr (Or.inl ⟨rfl, rfl, rfl, rfl⟩)⟩
         | exact ⟨_, rfl, Or.inr (Or.inr ⟨_, rfl, rfl, rfl, Or.inl rfl⟩)⟩
         | exact ⟨_, rfl, Or.inr (Or.inr ⟨_, rfl, rfl, rfl, Or.inr rfl⟩)⟩)

/-- C1 (hydration succeeds). When the delegate reports the key absent without
error (whatever state pointer accompanies the report), the contract read for
`key.ID` succeeds with `ReplicaId` equal to the configured group id and `Nonce`
equal to `key.Nonce`, and the delegate applies `CompareAndSwap(key, nil, fresh)`
without error, then `Get` returns `(fresh, true, nil)`, and its calls are the
delegate read, the contract read and that single `CompareAndSwap`; `fresh` is
the open row with zero authorized amount, nil signature and the contract's
nonce, sender, recipient, replica id and value. -/
theorem combinedStorage.Get_hydrates_on_miss (storage : combinedStorage σ)
    (key : PaymentChannelKey) (s s1 s2 : σ) (st0 : Option PaymentChannelData)
    (channel : MpeChannel) (fresh : PaymentChannelData)
    (hfresh : fresh =
      { Nonce := channel.Nonce, State := PaymentChannelState.Open, Sender := channel.Sender,
        Recipient := channel.Recipient, GroupId := channel.ReplicaId,
        FullAmount := channel.Value, AuthorizedAmount := 0, Signature := none })
    (hmiss : storage.delegate.Get key s = ((st0, false, none), s1))
    (hread : storage.mpe.Channels key.ID = (channel, none))
    (hgroup : channel.ReplicaId = storage.configGroupId)
    (hnonce : channel.Nonce = key.Nonce)
    (hcas : storage.delegate.CompareAndSwap key none (some fresh) s1 = ((true, none), s2)) :
    storage.Get key s =
      some { state := some fresh, ok := true, err := none, store := s2,
             calls := [Call.delegateGet key, Call.mpeChannels key.ID,
                       Call.delegateCompareAndSwap key none (some fresh)] } := by
  subst hfresh
  simp [combinedStorage.Get, combinedStorage.getChannelStateFromBlockchain,
    combinedStorage.CompareAndSwap, hmiss, hread, hgroup, hnonce] at hcas ⊢
  simp [hcas]

/-- Witness of C1: channel 42 at nonce 3 hydrated into an empty in-memory store
by a daemon of replica group 1. -/
theorem combinedStorage.Get_hydrates_on_miss_witness :
    (sampleStorage 1).Get sampleKey [] =
      some { state := some (freshChannelData sampleChannel), ok := true, err := none,
             store := [(sampleKey, freshChannelData sampleChannel)],
             calls := [Call.delegateGet sampleKey, Call.mpeChannels 42,
                       Call.delegateCompareAndSwap sampleKey none
                         (some (freshChannelData sampleChannel))] } :=
  combinedStorage.Get_hydrates_on_miss (sampleStorage 1) sampleKey [] []
    [(sampleKey, freshChannelData sampleChannel)] none sampleChannel
    (freshChannelData sampleChannel) rfl rfl rfl (by decide) (by decide) rfl

/-- C2 (storage hit). When the delegate returns a row as present with no
error, `Get` returns exactly that row with `present = true` and no error, and
the delegate read is its only call: no contract read, no `CompareAndSwap`, no
`Put`. -/
theorem combinedStorage.Get_hit_returns_stored_row (storage : combinedStorage σ)
    (key : PaymentChannelKey) (s s1 : σ) (row : Option PaymentChannelData)
    (hhit : storage.delegate.Get key s = ((row, true, none), s1)) :
    storage.Get key s =
      some { state := row, ok := true, err := none, store := s1,
             calls := [Call.delegateGet key] } := by
  simp [combinedStorage.Get, hhit]

/-- Witness of C2: the in-memory store holds a row for the key. -/
theorem combinedStorage.Get_hit_returns_stored_row_witness :
    (sampleStorage 1).Get sampleKey [(sampleKey, sampleRow)] =
      some { state := some sampleRow, ok := true, err := none,
             store := [(sampleKey, sampleRow)], calls := [Call.delegateGet sampleKey] } :=
  combinedStorage.Get_hit_returns_stored_row (sampleStorage 1) sampleKey
    [(sampleKey, sampleRow)] [(sampleKey, sampleRow)] (some sampleRow) (by decide)

/-- C3 (foreign replica group). When the delegate misses and the contract's
`ReplicaId` for `key.ID` differs from the configured group id, `Get` returns a
non-nil error with nil state and `present = false`; the delegate store is the
one its read left behind and the only calls are the delegate read and the
contract read, so neither `CompareAndSwap` nor `Put` is called. When the
contract read itself succeeded, the error is the group mismatch error. -/
theorem combinedStorage.Get_rejects_foreign_group (storage : combinedStorage σ)
    (key : PaymentChannelKey) (s s1 : σ) (st0 : Option PaymentChannelData)
    (hmiss : storage.delegate.Get key s = ((st0, false, none), s1))
    (hgroup : (storage.mpe.Channels key.ID).1.ReplicaId ≠ storage.configGroupId) :
    ∃ e, storage.Get key s =
        some { state := none, ok := false, err := some e, store := s1,
               calls := [Call.delegateGet key, Call.mpeChannels key.ID] } ∧
      ((storage.mpe.Channels key.ID).2 = none →
        e = Error.anotherGroup storage.configGroupId
              (storage.mpe.Channels key.ID).1.ReplicaId) := by
  cases herr : (storage.mpe.Channels key.ID).2 with
  | some e =>
    refine ⟨e, ?_, fun h => by cases h⟩
    simp [combinedStorage.Get, combinedStorage.getChannelStateFromBlockchain, hmiss, herr]
  | none =>
    refine ⟨Error.anotherGroup storage.configGroupId
      (storage.mpe.Channels key.ID).1.ReplicaId, ?_, fun _ => rfl⟩
    simp [combinedStorage.Get, combinedStorage.getChannelStateFromBlockchain, hmiss, herr,
      hgroup]

/-- Witness of C3: the contract channel belongs to group 1, the daemon to
group 5. -/
theorem combinedStorage.Get_rejects_foreign_group_witness :
    ∃ e, (sampleStorage 5).Get sampleKey [] =
        some { state := none, ok := false, err := some e, store := [],
               calls := [Call.delegateGet sampleKey, Call.mpeChannels 42] } ∧
      (((sampleStorage 5).mpe.Channels 42).2 = none → e = Error.anotherGroup 5 1) :=
  combinedStorage.Get_rejects_foreign_group (sampleStorage 5) sampleKey [] [] none rfl
    (by decide)

/-- C4 (nonce mismatch). When the delegate misses, the contract's `ReplicaId`
matches the configured group id and the contract's `Nonce` differs from
`key.Nonce` (in either direction), `Get` returns a non-nil error with nil state
and `present = false`; the only calls are the delegate read and the contract
read, so neither `CompareAndSwap` nor `Put` is called. When the contract read
itself succeeded, the error is the nonce mismatch error. -/
theorem combinedStorage.Get_rejects_nonce_mismatch (storage : combinedStorage σ)
    (key : PaymentChannelKey) (s s1 : σ) (st0 : Option PaymentChannelData)
    (hmiss : storage.delegate.Get key s = ((st0, false, none), s1))
    (hgroup : (storage.mpe.Channels key.ID).1.ReplicaId = storage.configGroupId)
    (hnonce : (storage.mpe.Channels key.ID).1.Nonce ≠ key.Nonce) :
    ∃ e, storage.Get key s =
        some { state := none, ok := false, err := some e, store := s1,
               calls := [Call.delegateGet key, Call.mpeChannels key.ID] } ∧
      ((storage.mpe.Channels key.ID).2 = none →
        e = Error.nonceNotEqual (storage.mpe.Channels key.ID).1.Nonce key.Nonce) := by
  cases herr : (storage.mpe.Channels key.ID).2 with
  | some e =>
    refine ⟨e, ?_, fun h => by cases h⟩
    simp [combinedStorage.Get, combinedStorage.getChannelStateFromBlockchain, hmiss, herr]
  | none =>
    refine ⟨Error.nonceNotEqual (storage.mpe.Channels key.ID).1.Nonce key.Nonce, ?_,
      fun _ => rfl⟩
    simp [combinedStorage.Get, combinedStorage.getChannelStateFromBlockchain, hmiss, herr,
      hgroup, hnonce]

/-- Witness of C4: the contract is at nonce 3, the key presents nonce 4. -/
theorem combinedStorage.Get_rejects_nonce_mismatch_witness :
    ∃ e, (sampleStorage 1).Get { ID := 42, Nonce := 4 } [] =
        some { state := none, ok := false, err := some e, store := [],
               calls := [Call.delegateGet { ID := 42, Nonce := 4 }, Call.mpeChannels 42] } ∧
      (((sampleStorage 1).mpe.Channels 42).2 = none → e = Error.nonceNotEqual 3 4) :=
  combinedStorage.Get_rejects_nonce_mismatch (sampleStorage 1) { ID := 42, Nonce := 4 } [] []
    none rfl (by decide) (by decide)

/-- C5 (lost race). When hydration reaches the insert step (delegate miss,
successful contract read, matching group and nonce) and the delegate's
`CompareAndSwap(key, nil, fresh)` returns not-applied with no error, `Get`
returns a soft miss: nil state, `present = false` and a nil error. -/
theorem combinedStorage.Get_soft_miss_on_lost_race (storage : combinedStorage σ)
    (key : PaymentChannelKey) (s s1 s2 : σ) (st0 : Option PaymentChannelData)
    (channel : MpeChannel)
    (hmiss : storage.delegate.Get key s = ((st0, false, none), s1))
    (hread : storage.mpe.Channels key.ID = (channel, none))
    (hgroup : channel.ReplicaId = storage.configGroupId)
    (hnonce : channel.Nonce = key.Nonce)
    (hcas : storage.delegate.CompareAndSwap key none (some (freshChannelData channel)) s1 =
      ((false, none), s2)) :
    storage.Get key s =
      some { state := none, ok := false, err := none, store := s2,
             calls := [Call.delegateGet key, Call.mpeChannels key.ID,
                       Call.delegateCompareAndSwap key none
                         (some (freshChannelData channel))] } := by
  simp [combinedStorage.Get, combinedStorage.getChannelStateFromBlockchain,
    combinedStorage.CompareAndSwap, freshChannelData, hmiss, hread, hgroup, hnonce] at hcas ⊢
  simp [hcas]

/-- Witness of C5: another replica installs `sampleRow` between this replica's
read and its insert. -/
theorem combinedStorage.Get_soft_miss_on_lost_race_witness :
    combinedStorage.Get
        { delegate := racingStorage sampleKey sampleRow, mpe := constantEscrow sampleChannel,
          configGroupId := 1 } sampleKey [] =
      some { state := none, ok := false, err := none, store := [(sampleKey, sampleRow)],
             calls := [Call.delegateGet sampleKey, Call.mpeChannels 42,
                       Call.delegateCompareAndSwap sampleKey none
                         (some (freshChannelData sampleChannel))] } :=
  combinedStorage.Get_soft_miss_on_lost_race
    { delegate := racingStorage sampleKey sampleRow, mpe := constantEscrow sampleChannel,
      configGroupId := 1 } sampleKey [] [(sampleKey, sampleRow)] [(sampleKey, sampleRow)]
    none sampleChannel rfl rfl (by decide) (by decide) (by decide)

/-- C11 (delegate read error). When the delegate's `Get` returns a non-nil
error, whatever state and presence flag accompany it, `Get` returns that same
error with nil state and `present = false`; the delegate store is the one the
read left behind and the delegate read is the only call: no contract read, no
`CompareAndSwap`, no `Put`. -/
theorem combinedStorage.Get_propagates_delegate_error (storage : combinedStorage σ)
    (key : PaymentChannelKey) (s s1 : σ) (st0 : Option PaymentChannelData) (ok0 : Bool)
    (e : Error)
    (hfail : storage.delegate.Get key s = ((st0, ok0, some e), s1)) :
    storage.Get key s =
      some { state := none, ok := false, err := some e, store := s1,
             calls := [Call.delegateGet key] } := by
  simp [combinedStorage.Get, hfail]

/-- Witness of C11: the delegate's read fails while reporting a present row;
the row and the flag are dropped, the error is returned. -/
theorem combinedStorage.Get_propagates_delegate_error_witness :
    combinedStorage.Get
        { delegate := failingStorage (Error.other "storage unavailable"),
          mpe := constantEscrow sampleChannel, configGroupId := 1 }
        sampleKey [(sampleKey, sampleRow)] =
      some { state := none, ok := false, err := some (Error.other "storage unavailable"),
             store := [(sampleKey, sampleRow)], calls := [Call.delegateGet sampleKey] } :=
  combinedStorage.Get_propagates_delegate_error
    { delegate := failingStorage (Error.other "storage unavailable"),
      mpe := constantEscrow sampleChannel, configGroupId := 1 }
    sampleKey [(sampleKey, sampleRow)] [(sampleKey, sampleRow)] (some sampleRow) true
    (Error.other "storage unavailable") (by decide)

/-- In the in-memory storage a `CompareAndSwap` expecting absence leaves a
present row as it is. -/
theorem memoryStorage_CompareAndSwap_nil_keeps_row (k : PaymentChannelKey)
    (new : Option PaymentChannelData) (st : MemoryStore) (row : PaymentChannelData)
    (h : MemoryStore.find st k = some row) :
    MemoryStore.find (memoryStorage.CompareAndSwap k none new st).2 k = some row := by
  simp [memoryStorage, h]

/-- C6 (no overwrite). Every execution of `Get` returns, never calls `Put`,
calls the delegate's `CompareAndSwap` at most once, and every such call is for
`key` with `prevState = nil`. Consequently, for any delegate whose store can be
read as a key/value map through `find` and whose `CompareAndSwap` with nil
expected leaves a present row as it is, a row that is present for the key in
the store which the delegate's read leaves behind (the store at the time the
write is attempted, including a row installed by another replica during the
read) is still the row for the key after `Get`. -/
theorem combinedStorage.Get_never_overwrites (storage : combinedStorage σ)
    (key : PaymentChannelKey) (s : σ) :
    ∃ r, storage.Get key s = some r ∧
      (∀ c ∈ r.calls, c.isPut = false) ∧
      countCompareAndSwap r.calls ≤ 1 ∧
      (∀ k prev new, Call.delegateCompareAndSwap k prev new ∈ r.calls → k = key ∧ prev = none) ∧
      (∀ find : σ → PaymentChannelKey → Option PaymentChannelData,
        (∀ k new st row, find st k = some row →
          find (storage.delegate.CompareAndSwap k none new st).2 k = some row) →
        ∀ row, find (storage.delegate.Get key s).2 key = some row →
          find r.store key = some row) := by
  obtain ⟨r, hr, hpath⟩ := combinedStorage.Get_paths storage key s
  refine ⟨r, hr, ?_⟩
  rcases hpath with ⟨hc, hs, -⟩ | ⟨hc, hs, -, -⟩ | ⟨st, hc, hs, -, -⟩
  · refine ⟨?_, ?_, ?_, ?_⟩
    · intro c hmem
      rw [hc] at hmem
      simp at hmem
      subst hmem
      rfl
    · rw [hc]
      simp [countCompareAndSwap]
    · intro k prev new hmem
      rw [hc] at hmem
      simp at hmem
    · intro find _ row hrow
      rw [hs]
      exact hrow
  · refine ⟨?_, ?_, ?_, ?_⟩
    · intro c hmem
      rw [hc] at hmem
      simp at hmem
      rcases hmem with h | h <;> subst h <;> rfl
    · rw [hc]
      simp [countCompareAndSwap]
    · intro k prev new hmem
      rw [hc] at hmem
      simp at hmem
    · intro find _ row hrow
      rw [hs]
      exact hrow
  · refine ⟨?_, ?_, ?_, ?_⟩
    · intro c hmem
      rw [hc] at hmem
      simp at hmem
      rcases hmem with h | h | h <;> subst h <;> rfl
    · rw [hc]
      simp [countCompareAndSwap]
    · intro k prev new hmem
      rw [hc] at hmem
      simp at hmem
      exact ⟨hmem.1, hmem.2.1⟩
    · intro find hfind row hrow
      rw [hs]
      exact hfind key (some st) _ row hrow

/-- Witness of C6: another replica installs `sampleRow` (with its cheque
progress) during this replica's read; the read reported a miss, the insert is
attempted and `sampleRow` is still the row for the key afterwards. -/
theorem combinedStorage.Get_never_overwrites_witness :
    ∃ r, combinedStorage.Get
        { delegate := racingStorage sampleKey sampleRow, mpe := constantEscrow sampleChannel,
          configGroupId := 1 } sampleKey [] = some r ∧
      countCompareAndSwap r.calls = 1 ∧
      MemoryStore.find r.store sampleKey = some sampleRow := by
  obtain ⟨r, hr, -, -, -, hkeep⟩ :=
    combinedStorage.Get_never_overwrites
      { delegate := racingStorage sampleKey sampleRow, mpe := constantEscrow sampleChannel,
        configGroupId := 1 } sampleKey []
  refine ⟨r, hr, ?_, ?_⟩
  · have hr2 : combinedStorage.Get
        { delegate := racingStorage sampleKey sampleRow, mpe := constantEscrow sampleChannel,
          configGroupId := 1 } sampleKey [] =
        some { state := none, ok := false, err := none, store := [(sampleKey, sampleRow)],
               calls := [Call.delegateGet sampleKey, Call.mpeChannels 42,
                         Call.delegateCompareAndSwap sampleKey none
                           (some (freshChannelData sampleChannel))] } := rfl
    rw [hr2] at hr
    cases hr
    rfl
  · exact hkeep MemoryStore.find
      (fun k new st row h => memoryStorage_CompareAndSwap_nil_keeps_row k new st row h)
      sampleRow (by decide)

/-- C7, as stated, fails on a storage hit: a daemon of replica group 1 whose
delegate holds a row of group 2 for the key returns that row with
`present = true`. -/
theorem combinedStorage.Get_returns_foreign_group_row :
    (sampleStorage 1).Get sampleKey [(sampleKey, foreignRow)] =
        some { state := some foreignRow, ok := true, err := none,
               store := [(sampleKey, foreignRow)], calls := [Call.delegateGet sampleKey] } ∧
      foreignRow.GroupId = 2 ∧ (sampleStorage 1).configGroupId = 1 :=
  ⟨rfl, rfl, rfl⟩

/-- C7, amended. Whenever `Get` returns a row with `present = true`, either
the delegate's read reported that very row as present without error (a storage
hit returns the stored row as it is, its `GroupId` unchecked), or the row's
`GroupId` equals the configured replica group id (every hydrated row). -/
theorem combinedStorage.Get_present_row_group (storage : combinedStorage σ)
    (key : PaymentChannelKey) (s : σ) (r : GetResult σ) (row : PaymentChannelData)
    (hget : storage.Get key s = some r) (hok : r.ok = true) (hrow : r.state = some row) :
    (storage.delegate.Get key s).1 = (some row, true, none) ∨
      row.GroupId = storage.configGroupId := by
  obtain ⟨r2, hr2, hpath⟩ := combinedStorage.Get_paths storage key s
  rw [hget] at hr2
  cases hr2
  rcases hpath with ⟨-, -, hhit | hno⟩ | ⟨-, -, hst, -⟩ | ⟨st, -, -, hg, hst⟩
  · left
    rw [hhit, hrow]
  · rw [hno] at hok
    cases hok
  · rw [hst] at hrow
    cases hrow
  · right
    rcases hst with h | h
    · rw [h] at hrow
      cases hrow
    · rw [h] at hrow
      cases hrow
      exact hg

/-- Witness of the amended C7: a row hydrated for channel 7. -/
theorem combinedStorage.Get_present_row_group_witness :
    (memoryStorage.Get { ID := 7, Nonce := 3 } []).1 =
        (some (freshChannelData sampleChannel), true, none) ∨
      (freshChannelData sampleChannel).GroupId = (sampleStorage 1).configGroupId :=
  combinedStorage.Get_present_row_group (sampleStorage 1) { ID := 7, Nonce := 3 } []
    { state := some (freshChannelData sampleChannel), ok := true, err := none,
      store := [({ ID := 7, Nonce := 3 }, freshChannelData sampleChannel)],
      calls := [Call.delegateGet { ID := 7, Nonce := 3 }, Call.mpeChannels 7,
                Call.delegateCompareAndSwap { ID := 7, Nonce := 3 } none
                  (some (freshChannelData sampleChannel))] }
    (freshChannelData sampleChannel) rfl rfl rfl

end escrow

/-! ## Theorems: payment handler -/

namespace escrow

open handler

end escrow

/-! ## Theorems: etcd client -/

namespace etcddb

/-- C9, as stated, fails: `CompareAndSet(key, nil, new)` overwrites a key that
exists with the empty value (here key `[1]`, rewritten to `[9]`), and it is not
applied to an absent key. -/
theorem EtcdClient.CompareAndSet_nil_is_not_insert_if_absent :
    (emptyEtcd.put [1] []).find [1] = some { Value := [], Version := 1 } ∧
    defaultClient.CompareAndSet (some [1]) none (some [9]) (emptyEtcd.put [1] []) =
      ((true, none), { kvs := [([1], { Value := [9], Version := 2 })], failure := none }) ∧
    emptyEtcd.find [1] = none ∧
    defaultClient.CompareAndSet (some [1]) none (some [9]) emptyEtcd =
      ((false, none), emptyEtcd) := by
  decide

/-- C9, amended. `CompareAndSet(key, nil, new)` issues a transaction guarded on
the value of the key being the empty string (the string of a nil slice), not
on the key not existing: when the cluster answers, no error is returned, the
write is applied and true returned exactly when the key exists and holds the
empty value, in which case the key then holds the new value at the next
version; otherwise (key absent, or holding a non-empty value) false is
returned and the key space is unchanged. -/
theorem EtcdClient.CompareAndSet_nil_guards_on_empty_value (client : EtcdClient)
    (key update : Option (List Nat)) (e : Etcd) (hup : e.failure = none) :
    (client.CompareAndSet key none update e).1.2 = none ∧
    ((client.CompareAndSet key none update e).1.1 = true ↔
      ∃ kv, e.find (byteArraytoString key) = some kv ∧ kv.Value = []) ∧
    ((client.CompareAndSet key none update e).1.1 = true →
      (client.CompareAndSet key none update e).2 =
        e.put (byteArraytoString key) (byteArraytoString update)) ∧
    ((client.CompareAndSet key none update e).1.1 = false →
      (client.CompareAndSet key none update e).2 = e) := by
  have hnil : byteArraytoString none = [] := rfl
  cases hfind : e.find (byteArraytoString key) with
  | none =>
    simp [EtcdClient.CompareAndSet, Commit, hup, Cmp.holds, hfind, hnil]
  | some kv =>
    by_cases hv : kv.Value = []
    · simp [EtcdClient.CompareAndSet, Commit, hup, Cmp.holds, hfind, hv, hnil, Op.apply]
    · simp [EtcdClient.CompareAndSet, Commit, hup, Cmp.holds, hfind, hv, hnil]

/-- Witness of the amended C9: key `[1]` holding the non-empty value `[5]`. -/
theorem EtcdClient.CompareAndSet_nil_guards_on_empty_value_witness :
    (defaultClient.CompareAndSet (some [1]) none (some [9]) (emptyEtcd.put [1] [5])).1 =
      (false, none) ∧
    (defaultClient.CompareAndSet (some [1]) none (some [9]) (emptyEtcd.put [1] [5])).2 =
      emptyEtcd.put [1] [5] := by
  have h := EtcdClient.CompareAndSet_nil_guards_on_empty_value defaultClient (some [1])
    (some [9]) (emptyEtcd.put [1] [5]) rfl
  have hfalse : (defaultClient.CompareAndSet (some [1]) none (some [9])
      (emptyEtcd.put [1] [5])).1.1 = false := by decide
  exact ⟨Prod.ext hfalse h.1, h.2.2.2 hfalse⟩

end etcddb

/-! ## Theorems: heartbeat configuration -/

namespace metrics

/-- What `ValidateHeartbeatConfig` checks: the string configured under the key
named by the configured heartbeat type (a second lookup). When that string is
none of the four accepted values the "unrecognized" error is returned;
otherwise the outcome is decided by the endpoint alone. -/
theorem ValidateHeartbeatConfig_checks_second_lookup (config : Config) :
    (config.GetString (config.GetString config.ServiceHeartbeatType) ∉
        ["grpc", "http", "none", ""] →
      ValidateHeartbeatConfig config =
        (some ("unrecognized heartbet service type : '" ++
          config.GetString (config.GetString config.ServiceHeartbeatType) ++ "'"), false)) ∧
    (config.GetString (config.GetString config.ServiceHeartbeatType) ∈
        ["grpc", "http", "none", ""] →
      ValidateHeartbeatConfig config = (none, true) ∨
      ValidateHeartbeatConfig config = (none, false) ∨
      ValidateHeartbeatConfig config = (some "service endpoint must be a valid URL", false)) := by
  unfold ValidateHeartbeatConfig
  generalize config.GetString (config.GetString config.ServiceHeartbeatType) = hbType
  constructor
  · intro h
    simp only [List.mem_cons, List.mem_singleton, List.not_mem_nil, or_false, not_or] at h
    simp [h.1, h.2.1, h.2.2.1, h.2.2.2]
  · intro h
    simp only [List.mem_cons, List.mem_singleton, List.not_mem_nil, or_false] at h
    have hnot : ¬(hbType ≠ "grpc" ∧ hbType ≠ "http" ∧ hbType ≠ "none" ∧ hbType ≠ "") := by
      rcases h with h | h | h | h <;> simp [h]
    simp only [hnot, if_false]
    split_ifs <;> simp

/-- C10 fails on the code: with the heartbeat type configured as "foo" (none of
the four accepted values) and no setting named "foo", `ValidateHeartbeatConfig`
returns no error, because it validates the value looked up under the key
"foo" (the empty string) instead of the configured type. -/
theorem ValidateHeartbeatConfig_accepts_unknown_type :
    (heartbeatConfig "foo" "http://localhost:8080").GetString
        (heartbeatConfig "foo" "http://localhost:8080").ServiceHeartbeatType = "foo" ∧
    ValidateHeartbeatConfig (heartbeatConfig "foo" "http://localhost:8080") = (none, true) := by
  decide

end metrics
